import Mathlib

/-!
Shallow embedding of `src/server.js` (Express + Firebase Realtime Database
backend for a game's friend system and game-data store).

The Firebase store is modelled as an association list from user id to a
`User` record; Firebase's "a path with no data does not exist" semantics is
modelled by pruning entries equal to `emptyUser` (an empty subtree), and
`snapshot.exists()` on `users/<id>` is `getUser s id ≠ emptyUser`.
A multi-path atomic update whose paths are disjoint is modelled as the
composition of the per-path writes (order-independent on disjoint paths).
JS falsy checks on request-body strings (`!userId`) are modelled as
equality with `""`.
-/

namespace Srv

/-- A scalar JSON value stored in `gameData` (number, string, or boolean).
JS numbers are modelled as `Int`; the claims only involve integers. -/
inductive Value
  | num (n : Int)
  | str (s : String)
  | bool (b : Bool)
deriving DecidableEq

/-- The `profile` subtree written by `/createUser`:
`{ bio: "", avatarUrl: "", customStatus: "" }`. -/
structure Profile where
  bio : String
  avatarUrl : String
  customStatus : String
deriving DecidableEq

/-- One user subtree `users/<id>`.  Sets keyed by id with value `true`
(`friends`, `friendRequestsReceived`, `friendRequestsSent`) are modelled as
lists of keys; `gameData` is the schema-less field map.  `Option` fields are
absent (`none`) when the path holds no data. -/
structure User where
  uid : Option String
  pseudo : Option String
  profile : Option Profile
  gameData : List (String × Value)
  friends : List String
  friendRequestsReceived : List String
  friendRequestsSent : List String
  createdAt : Option Nat
deriving DecidableEq

/-- The empty subtree: in Firebase this user does not exist. -/
def emptyUser : User :=
  { uid := none, pseudo := none, profile := none, gameData := []
    friends := [], friendRequestsReceived := [], friendRequestsSent := []
    createdAt := none }

/-- The whole `users` collection: an association list id ↦ subtree. -/
abbrev Store := List (String × User)

/-- Point read of `users/<id>`; a missing entry is the empty subtree. -/
def getUser : Store → String → User
  | [], _ => emptyUser
  | (k, u) :: rest, id => if k = id then u else getUser rest id

/-- Replace the first entry with key `id`, or append a new one. -/
def putUserRaw : Store → String → User → Store
  | [], id, u => [(id, u)]
  | (k, v) :: rest, id, u =>
      if k = id then (id, u) :: rest else (k, v) :: putUserRaw rest id u

/-- Delete every entry with key `id`. -/
def removeUser : Store → String → Store
  | [], _ => []
  | (k, v) :: rest, id =>
      if k = id then removeUser rest id else (k, v) :: removeUser rest id

/-- Write the subtree `users/<id>`; writing an empty subtree deletes the
entry (Firebase stores no empty objects). -/
def putUser (s : Store) (id : String) (u : User) : Store :=
  if u = emptyUser then removeUser s id else putUserRaw s id u

/-- Read-modify-write of one user subtree. -/
def updUser (s : Store) (id : String) (f : User → User) : Store :=
  putUser s id (f (getUser s id))

/-- Membership-set insert: Firebase `path/<k> = true` (keys are unique). -/
def insertKey (l : List String) (k : String) : List String :=
  if k ∈ l then l else l ++ [k]

/-- Membership-set delete: Firebase `path/<k> = null`. -/
def eraseKey (l : List String) (k : String) : List String :=
  l.filter (fun x => x ≠ k)

/-- Write one field of a key/value map (`update` at `gameData/<k>`). -/
def setKV : List (String × Value) → String → Value → List (String × Value)
  | [], k, v => [(k, v)]
  | (k', v') :: rest, k, v =>
      if k' = k then (k, v) :: rest else (k', v') :: setKV rest k v

/-- Delete one field of a key/value map (`update` with `null`). -/
def removeKV : List (String × Value) → String → List (String × Value)
  | [], _ => []
  | (k', v') :: rest, k =>
      if k' = k then removeKV rest k else (k', v') :: removeKV rest k

/-- Point read of one field. -/
def lookupKV : List (String × Value) → String → Option Value
  | [], _ => none
  | (k', v') :: rest, k => if k' = k then some v' else lookupKV rest k

/-- A JS object literal being filled in by `updates[path] = x`: a later
assignment to the same key overwrites the earlier one in place. -/
def objUpsert : List (String × Option Value) → String → Option Value →
    List (String × Option Value)
  | [], k, v => [(k, v)]
  | (k', v') :: rest, k, v =>
      if k' = k then (k, v) :: rest else (k', v') :: objUpsert rest k v

/-- Apply a multi-path update map to a key/value map: `some v` writes the
field, `none` deletes it. -/
def applyKVUpdates (gd : List (String × Value)) :
    List (String × Option Value) → List (String × Value)
  | [] => gd
  | (k, some v) :: rest => applyKVUpdates (setKV gd k v) rest
  | (k, none) :: rest => applyKVUpdates (removeKV gd k) rest

/-- The typed failures of the endpoints: HTTP 400 (missing/empty/self
input) and HTTP 404 (missing user / field).  The embedded store never
fails, so the 500 paths are unreachable here. -/
inductive ApiError
  | invalidArgument
  | notFound
deriving DecidableEq

/-- JS `String.prototype.trim()`: strip leading and trailing whitespace
(written out over the character list so that it evaluates). -/
def jsTrim (s : String) : String :=
  ⟨((s.data.dropWhile Char.isWhitespace).reverse.dropWhile
      Char.isWhitespace).reverse⟩

/-- The record written by `POST /createUser` and the create branch of
`POST /findOrCreateUser`. -/
def freshUser (id pseudo : String) (t : Nat) : User :=
  { uid := some id, pseudo := some pseudo
    profile := some { bio := "", avatarUrl := "", customStatus := "" }
    gameData := [("mainScore", .num 0), ("level", .num 0)]
    friends := [], friendRequestsReceived := [], friendRequestsSent := []
    createdAt := some t }

/-- `POST /createUser`: requires a pseudo non-empty after trimming, then
`set`s a fresh record at a generated id (`newId` models `uuidv4()`, `t` the
server timestamp) and answers `{ id, pseudo }`. -/
def createUser (s : Store) (newId pseudo : String) (t : Nat) :
    Except ApiError (Store × String × String) :=
  if jsTrim pseudo = "" then .error .invalidArgument
  else .ok (putUser s newId (freshUser newId pseudo t), newId, pseudo)

/-- `GET /getUserDetails/:id`: 404 when the subtree is empty, else answers
`{ id, pseudo }`. -/
def getUserDetails (s : Store) (id : String) :
    Except ApiError (String × Option String) :=
  if id = "" then .error .invalidArgument
  else if getUser s id = emptyUser then .error .notFound
  else .ok (id, (getUser s id).pseudo)

/-- The two mirrored writes of `POST /sendFriendRequest`:
`users/<userId>/friendRequestsSent/<friendId> = true` and
`users/<friendId>/friendRequestsReceived/<userId> = true`, one atomic
multi-path update. -/
def applySend (s : Store) (userId friendId : String) : Store :=
  updUser
    (updUser s userId fun u =>
      { u with friendRequestsSent := insertKey u.friendRequestsSent friendId })
    friendId fun u =>
      { u with friendRequestsReceived := insertKey u.friendRequestsReceived userId }

/-- The two mirrored friendship writes of `POST /acceptFriendRequest`. -/
def applyFriendAdd (s : Store) (userId friendId : String) : Store :=
  updUser
    (updUser s userId fun u => { u with friends := insertKey u.friends friendId })
    friendId fun u => { u with friends := insertKey u.friends userId }

/-- The two mirrored pending-edge deletes shared by `acceptFriendRequest`
and `declineFriendRequest`:
`users/<userId>/friendRequestsReceived/<friendId> = null` and
`users/<friendId>/friendRequestsSent/<userId> = null`. -/
def applyClearPending (s : Store) (userId friendId : String) : Store :=
  updUser
    (updUser s userId fun u =>
      { u with friendRequestsReceived := eraseKey u.friendRequestsReceived friendId })
    friendId fun u =>
      { u with friendRequestsSent := eraseKey u.friendRequestsSent userId }

/-- `POST /sendFriendRequest`: 400 on a missing id or on `userId = friendId`,
else the atomic mirrored pending-edge write. -/
def sendFriendRequest (s : Store) (userId friendId : String) :
    Except ApiError Store :=
  if userId = "" ∨ friendId = "" then .error .invalidArgument
  else if userId = friendId then .error .invalidArgument
  else .ok (applySend s userId friendId)

/-- `POST /acceptFriendRequest`: one atomic update writing both friendship
entries and deleting both pending entries; no check that a request existed
(the paths are disjoint, so the composition order is immaterial). -/
def acceptFriendRequest (s : Store) (userId friendId : String) :
    Except ApiError Store :=
  if userId = "" ∨ friendId = "" then .error .invalidArgument
  else .ok (applyClearPending (applyFriendAdd s userId friendId) userId friendId)

/-- `POST /declineFriendRequest`: one atomic update deleting both pending
entries; deletes of absent keys are no-ops. -/
def declineFriendRequest (s : Store) (userId friendId : String) :
    Except ApiError Store :=
  if userId = "" ∨ friendId = "" then .error .invalidArgument
  else .ok (applyClearPending s userId friendId)

/-- `GET /getFriendRequests/:id`: the keys of the received set, each
resolved to `{ id, pseudo }` via `users/<id>/pseudo`, unresolvable ids
silently dropped. -/
def getFriendRequests (s : Store) (userId : String) :
    Except ApiError (List (String × String)) :=
  if userId = "" then .error .invalidArgument
  else .ok ((getUser s userId).friendRequestsReceived.filterMap fun id =>
    match (getUser s id).pseudo with
    | some p => some (id, p)
    | none => none)

/-- `GET /getFriendsList/:userId`: the keys of the friend set, resolved the
same way. -/
def getFriendsList (s : Store) (userId : String) :
    Except ApiError (List (String × String)) :=
  if userId = "" then .error .invalidArgument
  else .ok ((getUser s userId).friends.filterMap fun id =>
    match (getUser s id).pseudo with
    | some p => some (id, p)
    | none => none)

/-- Ascending key order on the `users` collection, used to model
`limitToFirst(1)` of an `orderByChild('pseudo').equalTo(...)` query. -/
def keyRel (a b : String × User) : Prop :=
  a.1 ≤ b.1

instance : DecidableRel keyRel := fun a b => by
  unfold keyRel
  exact inferInstance

/-- `POST /findOrCreateUser`: first user (in key order) whose `pseudo`
equals the input is returned unchanged; otherwise behaves as `createUser`. -/
def findOrCreateUser (s : Store) (freshId pseudo : String) (t : Nat) :
    Except ApiError (Store × String × String) :=
  if jsTrim pseudo = "" then .error .invalidArgument
  else
    match (List.insertionSort keyRel s).find?
        (fun p => p.2.pseudo = some pseudo) with
    | some p => .ok (s, p.1, p.2.pseudo.getD "")
    | none => .ok (putUser s freshId (freshUser freshId pseudo t), freshId, pseudo)

/-- `GET /api/users/:userId/gameData/:fieldName`: point read, 404 when the
path holds no data. -/
def getGameField (s : Store) (userId field : String) :
    Except ApiError Value :=
  match lookupKV (getUser s userId).gameData field with
  | some v => .ok v
  | none => .error .notFound

/-- `POST /api/users/:userId/gameData`: 400 on a missing field name or an
undefined value, 404 on a missing user, else writes the single path
`gameData/<field>`. -/
def setGameField (s : Store) (userId field : String) (value : Option Value) :
    Except ApiError Store :=
  if field = "" then .error .invalidArgument
  else
    match value with
    | none => .error .invalidArgument
    | some v =>
        if getUser s userId = emptyUser then .error .notFound
        else .ok (updUser s userId fun u =>
          { u with gameData := setKV u.gameData field v })

/-- `POST /api/users/:userId/rename-game-field`: 400 on a missing name,
404 on a missing user or a missing source field, else one atomic update
built as a JS object — `updates[gameData/<newField>] = old value` then
`updates[gameData/<oldField>] = null`, the second assignment overwriting
the first when the two names coincide. -/
def renameGameField (s : Store) (userId oldField newField : String) :
    Except ApiError Store :=
  if oldField = "" ∨ newField = "" then .error .invalidArgument
  else if getUser s userId = emptyUser then .error .notFound
  else
    match lookupKV (getUser s userId).gameData oldField with
    | none => .error .notFound
    | some oldVal =>
        let updates := objUpsert (objUpsert [] newField (some oldVal)) oldField none
        .ok (updUser s userId fun u =>
          { u with gameData := applyKVUpdates u.gameData updates })

/-- Firebase `orderByChild` value ordering: absent data first, then
booleans (`false` before `true`), then numbers by value, then strings
lexicographically. -/
def valRank : Option Value → Nat
  | none => 0
  | some (.bool false) => 1
  | some (.bool true) => 2
  | some (.num _) => 3
  | some (.str _) => 4

/-- Numeric component of the ordering key (0 outside numbers). -/
def numOf : Option Value → Int
  | some (.num n) => n
  | _ => 0

/-- String component of the ordering key (empty outside strings), as a
character list so that the lexicographic comparison evaluates. -/
def strOf : Option Value → List Char
  | some (.str s) => s.data
  | _ => []

/-- Lexicographic order on the (rank, number, string) key. -/
def tripLe (x y : Nat × Int × List Char) : Prop :=
  x.1 < y.1 ∨ (x.1 = y.1 ∧ (x.2.1 < y.2.1 ∨ (x.2.1 = y.2.1 ∧ x.2.2 ≤ y.2.2)))

/-- The ordering key of one user for `orderByChild('gameData/mainScore')`. -/
def scoreKey (p : String × User) : Nat × Int × List Char :=
  let v := lookupKV p.2.gameData "mainScore"
  (valRank v, numOf v, strOf v)

/-- The ascending order of the leaderboard range read. -/
def lbRel (a b : String × User) : Prop :=
  tripLe (scoreKey a) (scoreKey b)

instance : DecidableRel lbRel := fun a b => by
  unfold lbRel tripLe
  exact inferInstance

/-- One row of the `GET /api/leaderboard` response. -/
structure LBEntry where
  userId : String
  username : Option String
  profile : Option Profile
  gameData : List (String × Value)
deriving DecidableEq

/-- `GET /api/leaderboard`: range read of all users ordered ascending by
`gameData/mainScore`, rows without `gameData` skipped while iterating, then
`leaderboard.reverse()` for descending order.  No limit parameter exists on
this route. -/
def getLeaderboard (s : Store) : List LBEntry :=
  (((List.insertionSort lbRel s).filter
      (fun p => decide (p.2.gameData ≠ []))).map
    (fun p =>
      { userId := p.1, username := p.2.pseudo, profile := p.2.profile
        gameData := p.2.gameData })).reverse

/-- The states reachable from an empty store through the mutating
endpoints.  Ids handed to the create endpoints model `uuidv4()` results and
are therefore fresh (their subtree is empty). -/
inductive Reachable : Store → Prop
  | init : Reachable []
  | create {s s' : Store} {id name : String} {t : Nat} :
      Reachable s → getUser s id = emptyUser →
      createUser s id name t = .ok (s', id, name) → Reachable s'
  | findOrCreate {s s' : Store} {id name rid rname : String} {t : Nat} :
      Reachable s → getUser s id = emptyUser →
      findOrCreateUser s id name t = .ok (s', rid, rname) → Reachable s'
  | send {s s' : Store} {a b : String} :
      Reachable s → sendFriendRequest s a b = .ok s' → Reachable s'
  | accept {s s' : Store} {a b : String} :
      Reachable s → acceptFriendRequest s a b = .ok s' → Reachable s'
  | decline {s s' : Store} {a b : String} :
      Reachable s → declineFriendRequest s a b = .ok s' → Reachable s'
  | setField {s s' : Store} {uid f : String} {v : Option Value} :
      Reachable s → setGameField s uid f v = .ok s' → Reachable s'
  | renameField {s s' : Store} {uid oldF newF : String} :
      Reachable s → renameGameField s uid oldF newF = .ok s' → Reachable s'

/-- The mirror invariant on pending edges: A's sent set holds B iff B's
received set holds A, for every ordered pair of distinct ids. -/
def mirrorInv (s : Store) : Prop :=
  ∀ A B : String, A ≠ B →
    (B ∈ (getUser s A).friendRequestsSent ↔
      A ∈ (getUser s B).friendRequestsReceived)

/-- The ordering key of a leaderboard row (same key as `scoreKey`, read
off the row's copy of `gameData`). -/
def entryKey (e : LBEntry) : Nat × Int × List Char :=
  let v := lookupKV e.gameData "mainScore"
  (valRank v, numOf v, strOf v)

/-- Descending order on leaderboard rows: the later row's key is at most
the earlier one's. -/
def lbDescRel (e1 e2 : LBEntry) : Prop :=
  tripLe (entryKey e2) (entryKey e1)

instance : IsTotal (String × User) lbRel :=
  ⟨by
    intro a b
    unfold lbRel tripLe
    rcases lt_trichotomy (scoreKey a).1 (scoreKey b).1 with h | h | h
    · exact Or.inl (Or.inl h)
    · rcases lt_trichotomy (scoreKey a).2.1 (scoreKey b).2.1 with h2 | h2 | h2
      · exact Or.inl (Or.inr ⟨h, Or.inl h2⟩)
      · rcases le_total (scoreKey a).2.2 (scoreKey b).2.2 with h3 | h3
        · exact Or.inl (Or.inr ⟨h, Or.inr ⟨h2, h3⟩⟩)
        · exact Or.inr (Or.inr ⟨h.symm, Or.inr ⟨h2.symm, h3⟩⟩)
      · exact Or.inr (Or.inr ⟨h.symm, Or.inl h2⟩)
    · exact Or.inr (Or.inl h)⟩

instance : IsTrans (String × User) lbRel :=
  ⟨by
    intro a b c hab hbc
    unfold lbRel tripLe at *
    rcases hab with h1 | ⟨h1, h2 | ⟨h2, h3⟩⟩ <;>
      rcases hbc with g1 | ⟨g1, g2 | ⟨g2, g3⟩⟩
    · exact Or.inl (by omega)
    · exact Or.inl (by omega)
    · exact Or.inl (by omega)
    · exact Or.inl (by omega)
    · exact Or.inr ⟨by omega, Or.inl (by omega)⟩
    · exact Or.inr ⟨by omega, Or.inl (by omega)⟩
    · exact Or.inl (by omega)
    · exact Or.inr ⟨by omega, Or.inl (by omega)⟩
    · exact Or.inr ⟨by omega, Or.inr ⟨by omega, le_trans h3 g3⟩⟩⟩

/-- The concrete store of spec §8.8: four players whose `mainScore`
values are 5, 20, 1 and 20. -/
def lbExample : Store :=
  [("a", { emptyUser with pseudo := some "pa", gameData := [("mainScore", .num 5)] }),
   ("b", { emptyUser with pseudo := some "pb", gameData := [("mainScore", .num 20)] }),
   ("c", { emptyUser with pseudo := some "pc", gameData := [("mainScore", .num 1)] }),
   ("d", { emptyUser with pseudo := some "pd", gameData := [("mainScore", .num 20)] })]

/-! ### Basic store lemmas -/

theorem getUser_removeUser (s : Store) (id X : String) :
    getUser (removeUser s id) X = if X = id then emptyUser else getUser s X := by
  induction s with
  | nil => simp [removeUser, getUser]
  | cons p rest ih =>
      obtain ⟨k, u⟩ := p
      simp only [removeUser, getUser]
      split_ifs <;> simp_all [getUser]

theorem getUser_putUserRaw (s : Store) (id X : String) (u : User) :
    getUser (putUserRaw s id u) X = if X = id then u else getUser s X := by
  induction s with
  | nil =>
      simp only [putUserRaw, getUser]
      split_ifs <;> simp_all
  | cons p rest ih =>
      obtain ⟨k, v⟩ := p
      simp only [putUserRaw, getUser]
      split_ifs <;> simp_all [getUser]

theorem getUser_putUser (s : Store) (id X : String) (u : User) :
    getUser (putUser s id u) X = if X = id then u else getUser s X := by
  unfold putUser
  by_cases hu : u = emptyUser
  · subst hu
    simp [getUser_removeUser]
  · simp [hu, getUser_putUserRaw]

theorem getUser_updUser (s : Store) (id X : String) (f : User → User) :
    getUser (updUser s id f) X = if X = id then f (getUser s id) else getUser s X := by
  unfold updUser
  exact getUser_putUser s id X _

theorem mem_insertKey {l : List String} {a k : String} :
    a ∈ insertKey l k ↔ a ∈ l ∨ a = k := by
  unfold insertKey
  by_cases h : k ∈ l
  · simp only [if_pos h]
    constructor
    · exact Or.inl
    · rintro (ha | rfl)
      · exact ha
      · exact h
  · simp [if_neg h]

theorem mem_eraseKey {l : List String} {a k : String} :
    a ∈ eraseKey l k ↔ a ∈ l ∧ a ≠ k := by
  unfold eraseKey
  simp

theorem lookupKV_setKV_same (gd : List (String × Value)) (k : String) (v : Value) :
    lookupKV (setKV gd k v) k = some v := by
  induction gd with
  | nil => simp [setKV, lookupKV]
  | cons p rest ih =>
      obtain ⟨k', v'⟩ := p
      by_cases hk : k' = k
      · simp [setKV, hk, lookupKV]
      · simp [setKV, hk, lookupKV, ih]

theorem lookupKV_setKV_other (gd : List (String × Value)) (k k' : String)
    (v : Value) (h : k' ≠ k) :
    lookupKV (setKV gd k v) k' = lookupKV gd k' := by
  induction gd with
  | nil => simp [setKV, lookupKV, Ne.symm h]
  | cons p rest ih =>
      obtain ⟨k₀, v₀⟩ := p
      by_cases hk : k₀ = k
      · subst hk
        simp [setKV, lookupKV, Ne.symm h]
      · simp only [setKV, if_neg hk, lookupKV]
        by_cases h0 : k₀ = k'
        · simp [h0]
        · simp [h0, ih]

theorem lookupKV_removeKV_same (gd : List (String × Value)) (k : String) :
    lookupKV (removeKV gd k) k = none := by
  induction gd with
  | nil => simp [removeKV, lookupKV]
  | cons p rest ih =>
      obtain ⟨k', v'⟩ := p
      by_cases hk : k' = k
      · simp [removeKV, hk, ih]
      · simp [removeKV, hk, lookupKV, ih]

theorem lookupKV_removeKV_other (gd : List (String × Value)) (k k' : String)
    (h : k' ≠ k) :
    lookupKV (removeKV gd k) k' = lookupKV gd k' := by
  induction gd with
  | nil => simp [removeKV, lookupKV]
  | cons p rest ih =>
      obtain ⟨k₀, v₀⟩ := p
      by_cases hk : k₀ = k
      · subst hk
        simp [removeKV, lookupKV, Ne.symm h, ih]
      · simp only [removeKV, if_neg hk, lookupKV]
        by_cases h0 : k₀ = k'
        · simp [h0]
        · simp [h0, ih]

theorem setKV_ne_nil (gd : List (String × Value)) (k : String) (v : Value) :
    setKV gd k v ≠ [] := by
  cases gd with
  | nil => simp [setKV]
  | cons p rest =>
      obtain ⟨k', v'⟩ := p
      unfold setKV
      by_cases hk : k' = k <;> simp [hk]

theorem ne_emptyUser_of_gameData {u : User} (h : u.gameData ≠ []) :
    u ≠ emptyUser := by
  intro hu
  apply h
  rw [hu]
  rfl

theorem ne_emptyUser_of_pseudo {u : User} {p : String}
    (h : u.pseudo = some p) : u ≠ emptyUser := by
  intro hu
  rw [hu] at h
  simp [emptyUser] at h

theorem getUser_updUser_same (s : Store) (id : String) (f : User → User) :
    getUser (updUser s id f) id = f (getUser s id) := by
  rw [getUser_updUser]
  simp

theorem getUser_updUser_other (s : Store) (id X : String) (f : User → User)
    (h : X ≠ id) : getUser (updUser s id f) X = getUser s X := by
  rw [getUser_updUser]
  simp [h]

/-- Success shape of `POST /api/users/:userId/gameData`. -/
theorem setGameField_ok (s : Store) (r field : String) (v : Value)
    (hf : field ≠ "") (hex : getUser s r ≠ emptyUser) :
    setGameField s r field (some v) =
      .ok (updUser s r fun u => { u with gameData := setKV u.gameData field v }) := by
  unfold setGameField
  rw [if_neg hf]
  exact if_neg hex

/-- Success shape of the rename endpoint when the two names differ. -/
theorem renameGameField_ok (s : Store) (r oldF newF : String) (v : Value)
    (ho : oldF ≠ "") (hn : newF ≠ "") (hne : newF ≠ oldF)
    (hex : getUser s r ≠ emptyUser)
    (hv : lookupKV (getUser s r).gameData oldF = some v) :
    renameGameField s r oldF newF =
      .ok (updUser s r fun u =>
        { u with gameData := removeKV (setKV u.gameData newF v) oldF }) := by
  unfold renameGameField
  rw [if_neg (by simp [ho, hn]), if_neg hex, hv]
  simp [objUpsert, applyKVUpdates, hne]

/-- Success shape of the rename endpoint when old and new name coincide:
the JS updates object keeps only the delete entry. -/
theorem renameGameField_ok_same (s : Store) (r f : String) (v : Value)
    (hf : f ≠ "") (hex : getUser s r ≠ emptyUser)
    (hv : lookupKV (getUser s r).gameData f = some v) :
    renameGameField s r f f =
      .ok (updUser s r fun u => { u with gameData := removeKV u.gameData f }) := by
  unfold renameGameField
  rw [if_neg (by simp [hf]), if_neg hex, hv]
  simp [objUpsert, applyKVUpdates]

/-! ### Claim theorems: progress-store operations -/

/-- C7: `sendRequest(A, A)` always fails with `InvalidArgument` — either
the id is empty (missing-input 400) or the self-request check fires — and,
the error being returned before any store call, no state is written. -/
theorem send_self_invalid (s : Store) (A : String) :
    sendFriendRequest s A A = .error .invalidArgument := by
  unfold sendFriendRequest
  by_cases h : A = "" <;> simp [h]

/-- C4: on an existing record, `setField r "score" 10` followed by
`getField r "score"` yields 10; after `renameField r "score" "mainScore"`,
`getField r "mainScore"` yields 10 and `getField r "score"` fails
`NotFound`. -/
theorem set_get_rename_field (s : Store) (r : String)
    (hex : getUser s r ≠ emptyUser) :
    ∃ s1 s2,
      setGameField s r "score" (some (.num 10)) = .ok s1 ∧
      getGameField s1 r "score" = .ok (.num 10) ∧
      renameGameField s1 r "score" "mainScore" = .ok s2 ∧
      getGameField s2 r "mainScore" = .ok (.num 10) ∧
      getGameField s2 r "score" = .error .notFound := by
  refine ⟨_, _, setGameField_ok s r "score" (.num 10) (by decide) hex,
    ?_, renameGameField_ok _ r "score" "mainScore" (.num 10) (by decide) (by decide)
      (by decide) ?_ ?_, ?_, ?_⟩
  · simp [getGameField, getUser_updUser_same, lookupKV_setKV_same]
  · rw [getUser_updUser_same]
    exact ne_emptyUser_of_gameData (setKV_ne_nil _ _ _)
  · rw [getUser_updUser_same]
    exact lookupKV_setKV_same _ _ _
  · simp [getGameField, getUser_updUser_same, lookupKV_removeKV_other,
      lookupKV_setKV_same]
  · simp [getGameField, getUser_updUser_same, lookupKV_removeKV_same]

/-- C4 witness at a record created by `createUser`. -/
theorem set_get_rename_field_w :
    ∃ s1 s2,
      setGameField [("u", freshUser "u" "p" 0)] "u" "score" (some (.num 10)) = .ok s1 ∧
      getGameField s1 "u" "score" = .ok (.num 10) ∧
      renameGameField s1 "u" "score" "mainScore" = .ok s2 ∧
      getGameField s2 "u" "mainScore" = .ok (.num 10) ∧
      getGameField s2 "u" "score" = .error .notFound :=
  set_get_rename_field [("u", freshUser "u" "p" 0)] "u" (by decide)

/-- C5: `renameField` with a source field that is not present (including
the case of a record that does not exist at all) fails `NotFound`; the
handler returns before issuing any write, so the record is unchanged. -/
theorem rename_missing_field_fails (s : Store) (r oldF newF : String)
    (ho : oldF ≠ "") (hn : newF ≠ "")
    (habs : lookupKV (getUser s r).gameData oldF = none) :
    renameGameField s r oldF newF = .error .notFound := by
  unfold renameGameField
  rw [if_neg (by simp [ho, hn])]
  by_cases hex : getUser s r = emptyUser
  · rw [if_pos hex]
  · rw [if_neg hex, habs]

/-- C5 witness: renaming the absent field `"coins"` on a fresh record. -/
theorem rename_missing_field_fails_w :
    renameGameField [("u", freshUser "u" "p" 0)] "u" "coins" "gold" =
      .error .notFound :=
  rename_missing_field_fails _ _ _ _ (by decide) (by decide) (by decide)

/-- C10: renaming a present field to its own name deletes it — the delete
assignment overwrites the write assignment at the same key of the JS
updates object — so a subsequent `getField` fails `NotFound`. -/
theorem rename_same_field_deletes (s : Store) (r f : String) (v : Value)
    (hf : f ≠ "") (hex : getUser s r ≠ emptyUser)
    (hv : lookupKV (getUser s r).gameData f = some v) :
    ∃ s', renameGameField s r f f = .ok s' ∧
      getGameField s' r f = .error .notFound := by
  refine ⟨_, renameGameField_ok_same s r f v hf hex hv, ?_⟩
  simp [getGameField, getUser_updUser_same, lookupKV_removeKV_same]

/-- C10 witness: renaming `"level"` to itself on a fresh record. -/
theorem rename_same_field_deletes_w :
    ∃ s', renameGameField [("u", freshUser "u" "p" 0)] "u" "level" "level" = .ok s' ∧
      getGameField s' "u" "level" = .error .notFound :=
  rename_same_field_deletes [("u", freshUser "u" "p" 0)] "u" "level" (.num 0)
    (by decide) (by decide) (by decide)

/-! ### Claim theorems: identity registry -/

theorem freshUser_ne_emptyUser (id p : String) (t : Nat) :
    freshUser id p t ≠ emptyUser :=
  ne_emptyUser_of_pseudo rfl

/-- C8: any name non-empty after trimming creates an identity whose
details read back as the same id and name; an identical name creates a
second identity under the (distinct) freshly generated id; a name empty
after trimming is rejected before any write. -/
theorem create_then_get_identity (s : Store) (id1 id2 name : String)
    (t1 t2 : Nat) (hname : jsTrim name ≠ "") (hid1 : id1 ≠ "")
    (hne : id2 ≠ id1) :
    ∃ s1 s2,
      createUser s id1 name t1 = .ok (s1, id1, name) ∧
      getUserDetails s1 id1 = .ok (id1, some name) ∧
      createUser s1 id2 name t2 = .ok (s2, id2, name) ∧ id2 ≠ id1 ∧
      (∀ bad : String, jsTrim bad = "" →
        createUser s id1 bad t1 = .error .invalidArgument) := by
  have hc : ∀ (st : Store) (idx : String) (tx : Nat),
      createUser st idx name tx =
        .ok (putUser st idx (freshUser idx name tx), idx, name) := by
    intro st idx tx
    unfold createUser
    rw [if_neg hname]
  refine ⟨_, _, hc s id1 t1, ?_, hc _ id2 t2, hne, ?_⟩
  · have hg : getUser (putUser s id1 (freshUser id1 name t1)) id1 =
        freshUser id1 name t1 := by
      rw [getUser_putUser]
      simp
    unfold getUserDetails
    rw [if_neg hid1, hg, if_neg (freshUser_ne_emptyUser id1 name t1)]
    rfl
  · intro bad hbad
    unfold createUser
    rw [if_pos hbad]

/-- C8 witness: two creations of the name `"Bob"` from the empty store. -/
theorem create_then_get_identity_w :
    ∃ s1 s2,
      createUser [] "u1" "Bob" 0 = .ok (s1, "u1", "Bob") ∧
      getUserDetails s1 "u1" = .ok ("u1", some "Bob") ∧
      createUser s1 "u2" "Bob" 1 = .ok (s2, "u2", "Bob") ∧ "u2" ≠ "u1" ∧
      (∀ bad : String, jsTrim bad = "" →
        createUser [] "u1" bad 0 = .error .invalidArgument) :=
  create_then_get_identity [] "u1" "u2" "Bob" 0 1 (by decide) (by decide)
    (by decide)

theorem find?_eq_some_of_unique {α : Type} {p : α → Bool} {l : List α} {x : α}
    (hx : x ∈ l) (hpx : p x = true)
    (huniq : ∀ y ∈ l, p y = true → y = x) : l.find? p = some x := by
  induction l with
  | nil => cases hx
  | cons a rest ih =>
      by_cases hpa : p a = true
      · have ha : a = x := huniq a (List.mem_cons_self a rest) hpa
        subst ha
        exact List.find?_cons_of_pos rest hpa
      · have hax : ¬(a = x) := fun h => hpa (h ▸ hpx)
        have hx' : x ∈ rest := by
          rcases List.mem_cons.1 hx with h | h
          · exact absurd h.symm hax
          · exact h
        rw [List.find?_cons_of_neg rest hpa]
        exact ih hx' fun y hy hpy => huniq y (List.mem_cons_of_mem a hy) hpy

theorem putUserRaw_cons_ne {k id : String} (v u : User) (rest : Store)
    (h : k ≠ id) :
    putUserRaw ((k, v) :: rest) id u = (k, v) :: putUserRaw rest id u := by
  simp only [putUserRaw]
  rw [if_neg h]

theorem mem_putUserRaw_iff {s : Store} {id : String} {u : User}
    (h : ∀ p ∈ s, p.1 ≠ id) (x : String × User) :
    x ∈ putUserRaw s id u ↔ x ∈ s ∨ x = (id, u) := by
  induction s with
  | nil => simp [putUserRaw]
  | cons a rest ih =>
      have ha : a.1 ≠ id := h a (List.mem_cons_self a rest)
      obtain ⟨k, v⟩ := a
      rw [putUserRaw_cons_ne v u rest ha]
      simp only [List.mem_cons]
      rw [ih fun p hp => h p (List.mem_cons_of_mem _ hp)]
      tauto

/-- C9: with a display name no existing identity carries, two consecutive
`findOrCreateUser` calls both answer the id generated by the first call —
the first creates the record, the second finds it and writes nothing. -/
theorem findOrCreate_idempotent (s : Store) (f1 f2 name : String)
    (t1 t2 : Nat) (hname : jsTrim name ≠ "")
    (hunused : ∀ p ∈ s, p.2.pseudo ≠ some name)
    (hfresh : ∀ p ∈ s, p.1 ≠ f1) :
    ∃ s1,
      findOrCreateUser s f1 name t1 = .ok (s1, f1, name) ∧
      findOrCreateUser s1 f2 name t2 = .ok (s1, f1, name) := by
  have hperm := List.perm_insertionSort keyRel s
  have hnone : (List.insertionSort keyRel s).find?
      (fun p => p.2.pseudo = some name) = none := by
    rw [List.find?_eq_none]
    intro p hp
    simp only [decide_eq_true_eq]
    exact hunused p (hperm.mem_iff.1 hp)
  refine ⟨putUserRaw s f1 (freshUser f1 name t1), ?_, ?_⟩
  · unfold findOrCreateUser
    rw [if_neg hname, hnone]
    unfold putUser
    rw [if_neg (freshUser_ne_emptyUser f1 name t1)]
  · have hperm1 := List.perm_insertionSort keyRel (putUserRaw s f1 (freshUser f1 name t1))
    have hfind : (List.insertionSort keyRel (putUserRaw s f1 (freshUser f1 name t1))).find?
        (fun p => p.2.pseudo = some name) = some (f1, freshUser f1 name t1) := by
      apply find?_eq_some_of_unique
      · exact hperm1.mem_iff.2 ((mem_putUserRaw_iff hfresh _).2 (Or.inr rfl))
      · simp [freshUser]
      · intro y hy hpy
        rcases (mem_putUserRaw_iff hfresh y).1 (hperm1.mem_iff.1 hy) with hmem | rfl
        · exact absurd (by simpa using hpy) (hunused y hmem)
        · rfl
    unfold findOrCreateUser
    rw [if_neg hname, hfind]
    rfl

/-- C9 witness: the name `"Ana"` on the empty store. -/
theorem findOrCreate_idempotent_w :
    ∃ s1,
      findOrCreateUser [] "u1" "Ana" 0 = .ok (s1, "u1", "Ana") ∧
      findOrCreateUser s1 "u2" "Ana" 1 = .ok (s1, "u1", "Ana") :=
  findOrCreate_idempotent [] "u1" "u2" "Ana" 0 1 (by decide) (by simp)
    (by simp)

/-! ### Projection lemmas for the relationship operations -/

theorem sent_applySend (s : Store) (a b X : String) :
    (getUser (applySend s a b) X).friendRequestsSent =
      if X = a then insertKey (getUser s a).friendRequestsSent b
      else (getUser s X).friendRequestsSent := by
  unfold applySend
  simp only [getUser_updUser]
  split_ifs <;> simp_all

theorem recv_applySend (s : Store) (a b X : String) :
    (getUser (applySend s a b) X).friendRequestsReceived =
      if X = b then insertKey (getUser s b).friendRequestsReceived a
      else (getUser s X).friendRequestsReceived := by
  unfold applySend
  simp only [getUser_updUser]
  split_ifs <;> simp_all

theorem pseudo_applySend (s : Store) (a b X : String) :
    (getUser (applySend s a b) X).pseudo = (getUser s X).pseudo := by
  unfold applySend
  simp only [getUser_updUser]
  split_ifs <;> simp_all

theorem friends_applySend (s : Store) (a b X : String) :
    (getUser (applySend s a b) X).friends = (getUser s X).friends := by
  unfold applySend
  simp only [getUser_updUser]
  split_ifs <;> simp_all

theorem friends_applyFriendAdd (s : Store) (a b X : String) (hab : a ≠ b) :
    (getUser (applyFriendAdd s a b) X).friends =
      if X = a then insertKey (getUser s a).friends b
      else if X = b then insertKey (getUser s b).friends a
      else (getUser s X).friends := by
  unfold applyFriendAdd
  simp only [getUser_updUser]
  split_ifs <;> simp_all

theorem sent_applyFriendAdd (s : Store) (a b X : String) :
    (getUser (applyFriendAdd s a b) X).friendRequestsSent =
      (getUser s X).friendRequestsSent := by
  unfold applyFriendAdd
  simp only [getUser_updUser]
  split_ifs <;> simp_all

theorem recv_applyFriendAdd (s : Store) (a b X : String) :
    (getUser (applyFriendAdd s a b) X).friendRequestsReceived =
      (getUser s X).friendRequestsReceived := by
  unfold applyFriendAdd
  simp only [getUser_updUser]
  split_ifs <;> simp_all

theorem pseudo_applyFriendAdd (s : Store) (a b X : String) :
    (getUser (applyFriendAdd s a b) X).pseudo = (getUser s X).pseudo := by
  unfold applyFriendAdd
  simp only [getUser_updUser]
  split_ifs <;> simp_all

theorem recv_applyClearPending (s : Store) (a b X : String) :
    (getUser (applyClearPending s a b) X).friendRequestsReceived =
      if X = a then eraseKey (getUser s a).friendRequestsReceived b
      else (getUser s X).friendRequestsReceived := by
  unfold applyClearPending
  simp only [getUser_updUser]
  split_ifs <;> simp_all

theorem sent_applyClearPending (s : Store) (a b X : String) :
    (getUser (applyClearPending s a b) X).friendRequestsSent =
      if X = b then eraseKey (getUser s b).friendRequestsSent a
      else (getUser s X).friendRequestsSent := by
  unfold applyClearPending
  simp only [getUser_updUser]
  split_ifs <;> simp_all

theorem pseudo_applyClearPending (s : Store) (a b X : String) :
    (getUser (applyClearPending s a b) X).pseudo = (getUser s X).pseudo := by
  unfold applyClearPending
  simp only [getUser_updUser]
  split_ifs <;> simp_all

theorem friends_applyClearPending (s : Store) (a b X : String) :
    (getUser (applyClearPending s a b) X).friends = (getUser s X).friends := by
  unfold applyClearPending
  simp only [getUser_updUser]
  split_ifs <;> simp_all

/-- Success shape of `POST /sendFriendRequest`. -/
theorem sendFriendRequest_ok (s : Store) (a b : String) (ha : a ≠ "")
    (hb : b ≠ "") (hab : a ≠ b) :
    sendFriendRequest s a b = .ok (applySend s a b) := by
  unfold sendFriendRequest
  rw [if_neg (by simp [ha, hb]), if_neg hab]

/-- Success shape of `POST /acceptFriendRequest`. -/
theorem acceptFriendRequest_ok (s : Store) (a b : String) (ha : a ≠ "")
    (hb : b ≠ "") :
    acceptFriendRequest s a b =
      .ok (applyClearPending (applyFriendAdd s a b) a b) := by
  unfold acceptFriendRequest
  rw [if_neg (by simp [ha, hb])]

/-- Success shape of `POST /declineFriendRequest`. -/
theorem declineFriendRequest_ok (s : Store) (a b : String) (ha : a ≠ "")
    (hb : b ≠ "") :
    declineFriendRequest s a b = .ok (applyClearPending s a b) := by
  unfold declineFriendRequest
  rw [if_neg (by simp [ha, hb])]

/-- Success shape of `GET /getFriendRequests/:id`. -/
theorem getFriendRequests_ok (s : Store) (userId : String) (h : userId ≠ "") :
    getFriendRequests s userId =
      .ok ((getUser s userId).friendRequestsReceived.filterMap fun id =>
        match (getUser s id).pseudo with
        | some p => some (id, p)
        | none => none) := by
  unfold getFriendRequests
  rw [if_neg h]

/-- Success shape of `GET /getFriendsList/:userId`. -/
theorem getFriendsList_ok (s : Store) (userId : String) (h : userId ≠ "") :
    getFriendsList s userId =
      .ok ((getUser s userId).friends.filterMap fun id =>
        match (getUser s id).pseudo with
        | some p => some (id, p)
        | none => none) := by
  unfold getFriendsList
  rw [if_neg h]

/-! ### Claim theorems: relationship lifecycle -/

/-- C2: after `sendRequest(A,B)` the target's received list resolves A;
after `acceptRequest(B,A)` both friends lists contain the other player and
the pending pair is gone from B's received set and A's sent set. -/
theorem send_accept_lifecycle (s : Store) (A B pA pB : String)
    (hA : A ≠ "") (hB : B ≠ "") (hAB : A ≠ B)
    (hpA : (getUser s A).pseudo = some pA)
    (hpB : (getUser s B).pseudo = some pB) :
    ∃ s1 s2 reqs fA fB,
      sendFriendRequest s A B = .ok s1 ∧
      getFriendRequests s1 B = .ok reqs ∧ (A, pA) ∈ reqs ∧
      acceptFriendRequest s1 B A = .ok s2 ∧
      getFriendsList s2 A = .ok fA ∧ (B, pB) ∈ fA ∧
      getFriendsList s2 B = .ok fB ∧ (A, pA) ∈ fB ∧
      A ∉ (getUser s2 B).friendRequestsReceived ∧
      B ∉ (getUser s2 A).friendRequestsSent := by
  have hBA : B ≠ A := Ne.symm hAB
  refine ⟨applySend s A B, applyClearPending (applyFriendAdd (applySend s A B) B A) B A,
    _, _, _, sendFriendRequest_ok s A B hA hB hAB,
    getFriendRequests_ok _ B hB, ?_,
    acceptFriendRequest_ok _ B A hB hA,
    getFriendsList_ok _ A hA, ?_,
    getFriendsList_ok _ B hB, ?_, ?_, ?_⟩
  · apply List.mem_filterMap.2
    refine ⟨A, ?_, ?_⟩
    · rw [recv_applySend, if_pos rfl]
      exact mem_insertKey.2 (Or.inr rfl)
    · rw [pseudo_applySend, hpA]
  · apply List.mem_filterMap.2
    refine ⟨B, ?_, ?_⟩
    · rw [friends_applyClearPending, friends_applyFriendAdd _ _ _ _ hBA,
        if_neg hAB, if_pos rfl, friends_applySend]
      exact mem_insertKey.2 (Or.inr rfl)
    · rw [pseudo_applyClearPending, pseudo_applyFriendAdd, pseudo_applySend, hpB]
  · apply List.mem_filterMap.2
    refine ⟨A, ?_, ?_⟩
    · rw [friends_applyClearPending, friends_applyFriendAdd _ _ _ _ hBA,
        if_pos rfl, friends_applySend]
      exact mem_insertKey.2 (Or.inr rfl)
    · rw [pseudo_applyClearPending, pseudo_applyFriendAdd, pseudo_applySend, hpA]
  · rw [recv_applyClearPending, if_pos rfl, recv_applyFriendAdd]
    intro hmem
    exact (mem_eraseKey.1 hmem).2 rfl
  · rw [sent_applyClearPending, if_pos rfl, sent_applyFriendAdd]
    intro hmem
    exact (mem_eraseKey.1 hmem).2 rfl

/-- C2 witness at two freshly created players. -/
theorem send_accept_lifecycle_w :
    ∃ s1 s2 reqs fA fB,
      sendFriendRequest [("a", freshUser "a" "pa" 0), ("b", freshUser "b" "pb" 0)]
        "a" "b" = .ok s1 ∧
      getFriendRequests s1 "b" = .ok reqs ∧ ("a", "pa") ∈ reqs ∧
      acceptFriendRequest s1 "b" "a" = .ok s2 ∧
      getFriendsList s2 "a" = .ok fA ∧ ("b", "pb") ∈ fA ∧
      getFriendsList s2 "b" = .ok fB ∧ ("a", "pa") ∈ fB ∧
      "a" ∉ (getUser s2 "b").friendRequestsReceived ∧
      "b" ∉ (getUser s2 "a").friendRequestsSent :=
  send_accept_lifecycle [("a", freshUser "a" "pa" 0), ("b", freshUser "b" "pb" 0)]
    "a" "b" "pa" "pb" (by decide) (by decide) (by decide) (by decide) (by decide)

/-- C6: `declineRequest(B,A)` after `sendRequest(A,B)`, starting from a
pair with no friends and no pending edge, leaves both friend sets and both
pending sets empty — no friendship is created by decline. -/
theorem decline_clears_pending (s : Store) (A B : String)
    (hA : A ≠ "") (hB : B ≠ "") (hAB : A ≠ B)
    (hfA : (getUser s A).friends = []) (hfB : (getUser s B).friends = [])
    (hsA : (getUser s A).friendRequestsSent = [])
    (hrB : (getUser s B).friendRequestsReceived = []) :
    ∃ s1 s2,
      sendFriendRequest s A B = .ok s1 ∧
      declineFriendRequest s1 B A = .ok s2 ∧
      (getUser s2 A).friends = [] ∧ (getUser s2 B).friends = [] ∧
      (getUser s2 A).friendRequestsSent = [] ∧
      (getUser s2 B).friendRequestsReceived = [] := by
  refine ⟨applySend s A B, applyClearPending (applySend s A B) B A,
    sendFriendRequest_ok s A B hA hB hAB, declineFriendRequest_ok _ B A hB hA,
    ?_, ?_, ?_, ?_⟩
  · rw [friends_applyClearPending, friends_applySend]
    exact hfA
  · rw [friends_applyClearPending, friends_applySend]
    exact hfB
  · rw [sent_applyClearPending, if_pos rfl, sent_applySend, if_pos rfl, hsA]
    simp [insertKey, eraseKey]
  · rw [recv_applyClearPending, if_pos rfl, recv_applySend, if_pos rfl, hrB]
    simp [insertKey, eraseKey]

/-- C6 witness at two freshly created players. -/
theorem decline_clears_pending_w :
    ∃ s1 s2,
      sendFriendRequest [("a", freshUser "a" "pa" 0), ("b", freshUser "b" "pb" 0)]
        "a" "b" = .ok s1 ∧
      declineFriendRequest s1 "b" "a" = .ok s2 ∧
      (getUser s2 "a").friends = [] ∧ (getUser s2 "b").friends = [] ∧
      (getUser s2 "a").friendRequestsSent = [] ∧
      (getUser s2 "b").friendRequestsReceived = [] :=
  decline_clears_pending [("a", freshUser "a" "pa" 0), ("b", freshUser "b" "pb" 0)]
    "a" "b" (by decide) (by decide) (by decide) (by decide) (by decide)
    (by decide) (by decide)

/-! ### Inversion of the mutating endpoints (success case) -/

theorem sendFriendRequest_ok_inv {s s' : Store} {a b : String}
    (h : sendFriendRequest s a b = .ok s') :
    a ≠ b ∧ s' = applySend s a b := by
  unfold sendFriendRequest at h
  by_cases h0 : a = "" ∨ b = ""
  · rw [if_pos h0] at h
    cases h
  · rw [if_neg h0] at h
    by_cases h1 : a = b
    · rw [if_pos h1] at h
      cases h
    · rw [if_neg h1] at h
      exact ⟨h1, (Except.ok.inj h).symm⟩

theorem acceptFriendRequest_ok_inv {s s' : Store} {a b : String}
    (h : acceptFriendRequest s a b = .ok s') :
    s' = applyClearPending (applyFriendAdd s a b) a b := by
  unfold acceptFriendRequest at h
  by_cases h0 : a = "" ∨ b = ""
  · rw [if_pos h0] at h
    cases h
  · rw [if_neg h0] at h
    exact (Except.ok.inj h).symm

theorem declineFriendRequest_ok_inv {s s' : Store} {a b : String}
    (h : declineFriendRequest s a b = .ok s') :
    s' = applyClearPending s a b := by
  unfold declineFriendRequest at h
  by_cases h0 : a = "" ∨ b = ""
  · rw [if_pos h0] at h
    cases h
  · rw [if_neg h0] at h
    exact (Except.ok.inj h).symm

theorem createUser_ok_inv {s s' : Store} {id name rid rname : String} {t : Nat}
    (h : createUser s id name t = .ok (s', rid, rname)) :
    s' = putUser s id (freshUser id name t) := by
  unfold createUser at h
  by_cases h0 : jsTrim name = ""
  · rw [if_pos h0] at h
    cases h
  · rw [if_neg h0] at h
    exact (congrArg Prod.fst (Except.ok.inj h)).symm

theorem findOrCreateUser_ok_inv {s s' : Store} {id name rid rname : String}
    {t : Nat} (h : findOrCreateUser s id name t = .ok (s', rid, rname)) :
    s' = s ∨ s' = putUser s id (freshUser id name t) := by
  unfold findOrCreateUser at h
  by_cases h0 : jsTrim name = ""
  · rw [if_pos h0] at h
    cases h
  · rw [if_neg h0] at h
    rcases hf : (List.insertionSort keyRel s).find?
        (fun p => p.2.pseudo = some name) with _ | p
    · rw [hf] at h
      exact Or.inr (congrArg Prod.fst (Except.ok.inj h)).symm
    · rw [hf] at h
      exact Or.inl (congrArg Prod.fst (Except.ok.inj h)).symm

theorem setGameField_ok_inv {s s' : Store} {uid f : String} {v : Option Value}
    (h : setGameField s uid f v = .ok s') :
    ∃ g : User → List (String × Value),
      s' = updUser s uid fun u => { u with gameData := g u } := by
  unfold setGameField at h
  by_cases h0 : f = ""
  · rw [if_pos h0] at h
    cases h
  · rw [if_neg h0] at h
    rcases v with _ | w
    · cases h
    · dsimp only at h
      by_cases h1 : getUser s uid = emptyUser
      · rw [if_pos h1] at h
        cases h
      · rw [if_neg h1] at h
        exact ⟨fun u => setKV u.gameData f w, (Except.ok.inj h).symm⟩

theorem renameGameField_ok_inv {s s' : Store} {uid oldF newF : String}
    (h : renameGameField s uid oldF newF = .ok s') :
    ∃ g : User → List (String × Value),
      s' = updUser s uid fun u => { u with gameData := g u } := by
  unfold renameGameField at h
  by_cases h0 : oldF = "" ∨ newF = ""
  · rw [if_pos h0] at h
    cases h
  · rw [if_neg h0] at h
    by_cases h1 : getUser s uid = emptyUser
    · rw [if_pos h1] at h
      cases h
    · rw [if_neg h1] at h
      rcases hf : lookupKV (getUser s uid).gameData oldF with _ | w
      · rw [hf] at h
        cases h
      · rw [hf] at h
        exact ⟨_, (Except.ok.inj h).symm⟩

/-! ### Preservation of the mirror invariant -/

theorem mirrorInv_congr {s s' : Store}
    (hsent : ∀ X, (getUser s' X).friendRequestsSent =
      (getUser s X).friendRequestsSent)
    (hrecv : ∀ X, (getUser s' X).friendRequestsReceived =
      (getUser s X).friendRequestsReceived)
    (h : mirrorInv s) : mirrorInv s' := by
  intro A B hAB
  rw [hsent, hrecv]
  exact h A B hAB

theorem sent_updGameData (s : Store) (id X : String)
    (g : User → List (String × Value)) :
    (getUser (updUser s id fun u => { u with gameData := g u })
      X).friendRequestsSent = (getUser s X).friendRequestsSent := by
  rw [getUser_updUser]
  split_ifs <;> simp_all

theorem recv_updGameData (s : Store) (id X : String)
    (g : User → List (String × Value)) :
    (getUser (updUser s id fun u => { u with gameData := g u })
      X).friendRequestsReceived = (getUser s X).friendRequestsReceived := by
  rw [getUser_updUser]
  split_ifs <;> simp_all

theorem mirrorInv_updGameData {s : Store} {id : String}
    {g : User → List (String × Value)} (h : mirrorInv s) :
    mirrorInv (updUser s id fun u => { u with gameData := g u }) :=
  mirrorInv_congr (fun X => sent_updGameData s id X g)
    (fun X => recv_updGameData s id X g) h

theorem mirrorInv_applyFriendAdd {s : Store} {a b : String} (h : mirrorInv s) :
    mirrorInv (applyFriendAdd s a b) :=
  mirrorInv_congr (fun X => sent_applyFriendAdd s a b X)
    (fun X => recv_applyFriendAdd s a b X) h

theorem mirrorInv_putUserFresh {s : Store} {id : String} {u : User}
    (h : mirrorInv s) (hfresh : getUser s id = emptyUser)
    (hsent : u.friendRequestsSent = [])
    (hrecv : u.friendRequestsReceived = []) :
    mirrorInv (putUser s id u) := by
  intro A B hAB
  simp only [getUser_putUser]
  by_cases hA : A = id
  · subst hA
    rw [if_pos rfl, if_neg (Ne.symm hAB), hsent]
    constructor
    · intro hx
      cases hx
    · intro hx
      have hy := (h A B hAB).2 hx
      rw [hfresh] at hy
      cases hy
  · rw [if_neg hA]
    by_cases hB : B = id
    · subst hB
      rw [if_pos rfl, hrecv]
      constructor
      · intro hx
        have hy := (h A B hAB).1 hx
        rw [hfresh] at hy
        cases hy
      · intro hx
        cases hx
    · rw [if_neg hB]
      exact h A B hAB

theorem mirrorInv_applySend {s : Store} {a b : String} (hab : a ≠ b)
    (h : mirrorInv s) : mirrorInv (applySend s a b) := by
  intro A B hAB
  rw [sent_applySend, recv_applySend]
  by_cases hA : A = a
  · subst hA
    rw [if_pos rfl]
    by_cases hB : B = b
    · subst hB
      rw [if_pos rfl]
      constructor
      · intro _
        exact mem_insertKey.2 (Or.inr rfl)
      · intro _
        exact mem_insertKey.2 (Or.inr rfl)
    · rw [if_neg hB, mem_insertKey]
      constructor
      · rintro (hx | rfl)
        · exact (h A B hAB).1 hx
        · exact absurd rfl hB
      · intro hx
        exact Or.inl ((h A B hAB).2 hx)
  · rw [if_neg hA]
    by_cases hB : B = b
    · subst hB
      rw [if_pos rfl, mem_insertKey]
      constructor
      · intro hx
        exact Or.inl ((h A B hAB).1 hx)
      · rintro (hx | rfl)
        · exact (h A B hAB).2 hx
        · exact absurd rfl hA
    · rw [if_neg hB]
      exact h A B hAB

theorem mirrorInv_applyClearPending {s : Store} {a b : String}
    (h : mirrorInv s) : mirrorInv (applyClearPending s a b) := by
  intro A B hAB
  rw [sent_applyClearPending, recv_applyClearPending]
  by_cases hA : A = b
  · subst hA
    rw [if_pos rfl]
    by_cases hB : B = a
    · subst hB
      rw [if_pos rfl]
      constructor
      · intro hx
        exact absurd rfl (mem_eraseKey.1 hx).2
      · intro hx
        exact absurd rfl (mem_eraseKey.1 hx).2
    · rw [if_neg hB, mem_eraseKey]
      constructor
      · rintro ⟨hx, _⟩
        exact (h A B hAB).1 hx
      · intro hx
        exact ⟨(h A B hAB).2 hx, hB⟩
  · rw [if_neg hA]
    by_cases hB : B = a
    · subst hB
      rw [if_pos rfl, mem_eraseKey]
      constructor
      · intro hx
        exact ⟨(h A B hAB).1 hx, hA⟩
      · rintro ⟨hx, _⟩
        exact (h A B hAB).2 hx
    · rw [if_neg hB]
      exact h A B hAB

/-- C1: in every reachable state the pending-edge mirror invariant holds
(A's sent set holds B iff B's received set holds A, for distinct A, B);
moreover each operation touching a pending edge writes or clears both
mirrored entries in its one atomic update: a successful send leaves both
entries present, and a successful accept or decline leaves both absent. -/
theorem pending_mirror_invariant :
    (∀ s : Store, Reachable s → mirrorInv s) ∧
    (∀ (s s' : Store) (a b : String), sendFriendRequest s a b = .ok s' →
      b ∈ (getUser s' a).friendRequestsSent ∧
      a ∈ (getUser s' b).friendRequestsReceived) ∧
    (∀ (s s' : Store) (a b : String), acceptFriendRequest s a b = .ok s' →
      b ∉ (getUser s' a).friendRequestsReceived ∧
      a ∉ (getUser s' b).friendRequestsSent) ∧
    (∀ (s s' : Store) (a b : String), declineFriendRequest s a b = .ok s' →
      b ∉ (getUser s' a).friendRequestsReceived ∧
      a ∉ (getUser s' b).friendRequestsSent) := by
  refine ⟨?_, ?_, ?_, ?_⟩
  · intro s h
    induction h with
    | init =>
        intro A B hAB
        simp [getUser, emptyUser]
    | create hr hfresh heq ih =>
        rw [createUser_ok_inv heq]
        exact mirrorInv_putUserFresh ih hfresh rfl rfl
    | findOrCreate hr hfresh heq ih =>
        rcases findOrCreateUser_ok_inv heq with hs' | hs'
        · rw [hs']
          exact ih
        · rw [hs']
          exact mirrorInv_putUserFresh ih hfresh rfl rfl
    | send hr heq ih =>
        obtain ⟨hab, hs'⟩ := sendFriendRequest_ok_inv heq
        rw [hs']
        exact mirrorInv_applySend hab ih
    | accept hr heq ih =>
        rw [acceptFriendRequest_ok_inv heq]
        exact mirrorInv_applyClearPending (mirrorInv_applyFriendAdd ih)
    | decline hr heq ih =>
        rw [declineFriendRequest_ok_inv heq]
        exact mirrorInv_applyClearPending ih
    | setField hr heq ih =>
        obtain ⟨g, hs'⟩ := setGameField_ok_inv heq
        rw [hs']
        exact mirrorInv_updGameData ih
    | renameField hr heq ih =>
        obtain ⟨g, hs'⟩ := renameGameField_ok_inv heq
        rw [hs']
        exact mirrorInv_updGameData ih
  · intro s s' a b heq
    obtain ⟨hab, hs'⟩ := sendFriendRequest_ok_inv heq
    subst hs'
    constructor
    · rw [sent_applySend, if_pos rfl]
      exact mem_insertKey.2 (Or.inr rfl)
    · rw [recv_applySend, if_pos rfl]
      exact mem_insertKey.2 (Or.inr rfl)
  · intro s s' a b heq
    rw [acceptFriendRequest_ok_inv heq]
    constructor
    · rw [recv_applyClearPending, if_pos rfl]
      intro hx
      exact (mem_eraseKey.1 hx).2 rfl
    · rw [sent_applyClearPending, if_pos rfl]
      intro hx
      exact (mem_eraseKey.1 hx).2 rfl
  · intro s s' a b heq
    rw [declineFriendRequest_ok_inv heq]
    constructor
    · rw [recv_applyClearPending, if_pos rfl]
      intro hx
      exact (mem_eraseKey.1 hx).2 rfl
    · rw [sent_applyClearPending, if_pos rfl]
      intro hx
      exact (mem_eraseKey.1 hx).2 rfl

/-- C1 witness: the invariant at the reachable state obtained by one
`sendFriendRequest("a","b")` from the empty store. -/
theorem pending_mirror_invariant_w :
    mirrorInv [("a", { emptyUser with friendRequestsSent := ["b"] }),
      ("b", { emptyUser with friendRequestsReceived := ["a"] })] :=
  pending_mirror_invariant.1 _ (@Reachable.send [] _ "a" "b" Reachable.init (by rfl))

/-! ### Claim theorem: leaderboard -/

/-- C3: the leaderboard is the ascending range read by `mainScore`
reversed to descending — every result is pairwise descending in the
ranking key — and on the store with scores [5, 20, 1, 20] both 20-valued
rows come before the 5 and the 1.  (The route takes no limit parameter,
so no truncation ever happens; the claim's "when a limit is given" clause
is vacuous on this code.) -/
theorem leaderboard_descending :
    (∀ s : Store, List.Pairwise lbDescRel (getLeaderboard s)) ∧
    (getLeaderboard lbExample).map (fun e => e.userId) = ["d", "b", "a", "c"] ∧
    (getLeaderboard lbExample).map (fun e => lookupKV e.gameData "mainScore") =
      [some (.num 20), some (.num 20), some (.num 5), some (.num 1)] := by
  refine ⟨?_, by decide, by decide⟩
  intro s
  unfold getLeaderboard
  rw [List.pairwise_reverse, List.pairwise_map]
  exact List.Pairwise.sublist (List.filter_sublist _)
    (List.sorted_insertionSort lbRel s)

end Srv
